import Mathlib

/-
Shallow embedding of the RoPE engine in src/pwan/modules/model.py.

Tensors of reals are modelled as total functions from indices to the
reals, with shapes carried separately; the eager failure of a python
assert or a torch check is modelled with Option or Except results.
The trigonometric computation of the kernel, which the source forces
into float32, is modelled with exact real arithmetic.
-/

/-- One 2 by 2 entry of the frequency table, stored row major exactly
as the stack call of rope_params lays it out: a b on the first row,
c d on the second. -/
structure Mat2 where
  a : ℝ
  b : ℝ
  c : ℝ
  d : ℝ

/-- Embedding of rope_params (model.py lines 189 to 206).  The source
asserts that dim is even, then builds the table whose entry at position
p and frequency index i stacks cos, minus sin, sin, cos of the angle
p times the inverse of theta to the real power 2 i over dim.  The
assert is modelled by the none result; a some result carries the table
as a function of position and frequency index, of which the rows with
p below maxSeqLen are the materialised ones. -/
noncomputable def rope_params (maxSeqLen dim : ℕ) (theta : ℝ) :
    Option (ℕ → ℕ → Mat2) :=
  if dim % 2 = 0 then
    some (fun p i =>
      Mat2.mk
        (Real.cos ((p : ℝ) * (1 / Real.rpow theta (2 * (i : ℝ) / (dim : ℝ)))))
        (-(Real.sin ((p : ℝ) * (1 / Real.rpow theta (2 * (i : ℝ) / (dim : ℝ))))))
        (Real.sin ((p : ℝ) * (1 / Real.rpow theta (2 * (i : ℝ) / (dim : ℝ)))))
        (Real.cos ((p : ℝ) * (1 / Real.rpow theta (2 * (i : ℝ) / (dim : ℝ))))))
  else none

/-- Embedding of the triton rope_kernel (model.py lines 19 to 100),
exact trigonometric path.  The flat array x holds nHeads head vectors
of dimension D: element idx belongs to head idx / D at coordinate
idx % D, the owning token of head gi is gi / H where H is the number
of heads per element, and the angle of pair j is the position of the
owning token times the frequency at j.  Loads and stores are masked to
heads below nHeads, so elements of later heads pass through. -/
noncomputable def rope_kernel (x posv fv : ℕ → ℝ) (nHeads H D : ℕ)
    (idx : ℕ) : ℝ :=
  if idx / D < nHeads then
    if idx % D % 2 = 0 then
      x (idx / D * D + 2 * (idx % D / 2))
          * Real.cos (posv (idx / D / H) * fv (idx % D / 2))
        - x (idx / D * D + 2 * (idx % D / 2) + 1)
          * Real.sin (posv (idx / D / H) * fv (idx % D / 2))
    else
      x (idx / D * D + 2 * (idx % D / 2) + 1)
          * Real.cos (posv (idx / D / H) * fv (idx % D / 2))
        + x (idx / D * D + 2 * (idx % D / 2))
          * Real.sin (posv (idx / D / H) * fv (idx % D / 2))
  else x idx

/-- Minimal tensor model for the argument checks of rope_apply_jit:
a shape, a contiguity flag and the flat real data. -/
structure TorchTensor where
  shape : List ℕ
  contiguous : Bool
  data : ℕ → ℝ

/-- Embedding of rope_apply_jit (model.py lines 103 to 173).  The pair
returned holds the final contents of x together with the error message
raised, when one was: the checks run in source order and the kernel is
reached only when all of them pass, so a rejected call hands back x
untouched.  The block and group sizes of the launch only tile the
kernel without changing its result and are not modelled, and the
approximate trigonometric path is modelled by the exact one. -/
noncomputable def rope_apply_jit (x pos freqs : TorchTensor) :
    TorchTensor × Option String :=
  if x.shape.length ≠ 3 then (x, some "x must be a 3-D tensor")
  else if x.contiguous = false then (x, some "x must be contiguous")
  else if pos.shape.length ≠ 1 ∨ pos.shape.getD 0 0 ≠ x.shape.getD 0 0 then
    (x, some "pos must be a 1-D tensor with size N")
  else if pos.contiguous = false then (x, some "pos must be contiguous")
  else if freqs.shape.length ≠ 1 ∨ freqs.shape.getD 0 0 * 2 ≠ x.shape.getD 2 0 then
    (x, some "freqs must be a 1-D tensor with size half of D")
  else if freqs.contiguous = false then (x, some "freqs must be contiguous")
  else
    ({ x with data := (rope_kernel x.data pos.data freqs.data
        (x.shape.getD 0 0 * x.shape.getD 1 0) (x.shape.getD 1 0)
        (x.shape.getD 2 0)) }, none)

/-- Temporal band size of the frequency split in rope_apply
(model.py line 218): c - 2 * (c / 3). -/
def bT (c : ℕ) : ℕ := c - 2 * (c / 3)

/-- Height band size of the split: c / 3. -/
def bH (c : ℕ) : ℕ := c / 3

/-- Width band size of the split: c / 3. -/
def bW (c : ℕ) : ℕ := c / 3

/-- The three split sizes passed to freqs.split in rope_apply. -/
def splitSizes (c : ℕ) : ℕ × ℕ × ℕ := (bT c, bH c, bW c)

/-- Temporal band of the split table: the first bT c columns. -/
def bandT (freqs : ℕ → ℕ → Mat2) (p j : ℕ) : Mat2 := freqs p j

/-- Height band of the split table: columns bT c to bT c + bH c. -/
def bandH (c : ℕ) (freqs : ℕ → ℕ → Mat2) (p j : ℕ) : Mat2 :=
  freqs p (bT c + j)

/-- Width band of the split table: the remaining bW c columns. -/
def bandW (c : ℕ) (freqs : ℕ → ℕ → Mat2) (p j : ℕ) : Mat2 :=
  freqs p (bT c + bH c + j)

/-- Entry j of the per token frequency vector of token t for a grid
with extents f h w: the concatenation along the pair dimension of
bandT at the frame coordinate, bandH at the height coordinate and
bandW at the width coordinate of t, the token coordinates taken in row
major order, as built by the cat of expanded views in rope_apply
(model.py lines 237 to 242). -/
def freqsTok (c : ℕ) (freqs : ℕ → ℕ → Mat2) (f h w t j : ℕ) : Mat2 :=
  if j < bT c then bandT freqs (t / (h * w)) j
  else if j < bT c + bH c then bandH c freqs (t % (h * w) / w) (j - bT c)
  else bandW c freqs (t % w) (j - bT c - bH c)

/-- The axis position feeding entry j of the concatenated per token
vector: the frame coordinate on the temporal band, the height
coordinate on the height band, the width coordinate on the width
band. -/
def axisPos (c f h w t j : ℕ) : ℕ :=
  if j < bT c then t / (h * w)
  else if j < bT c + bH c then t % (h * w) / w
  else t % w

/-- The per sample output of rope_apply after its checks passed
(model.py lines 228 to 248), at token t, head nh, coordinate k.
Tokens below f * h * w are rotated pairwise: the matrix at pair k / 2
of the per token frequency vector is applied to the coordinate pair,
matching the elementwise product with freqs_i summed over the last
matrix axis; tokens at or beyond f * h * w are the padding tail
concatenated back verbatim. -/
noncomputable def rope_apply_out (x : ℕ → ℕ → ℕ → ℝ)
    (freqs : ℕ → ℕ → Mat2) (c f h w t nh k : ℕ) : ℝ :=
  if t < f * h * w then
    if k % 2 = 0 then
      x t nh (2 * (k / 2)) * (freqsTok c freqs f h w t (k / 2)).a
        + x t nh (2 * (k / 2) + 1) * (freqsTok c freqs f h w t (k / 2)).b
    else
      x t nh (2 * (k / 2)) * (freqsTok c freqs f h w t (k / 2)).c
        + x t nh (2 * (k / 2) + 1) * (freqsTok c freqs f h w t (k / 2)).d
  else x t nh k

/-- Embedding of one iteration of the sample loop of rope_apply
(model.py lines 222 to 253), with l the padded length x.size(1), c the
pair count x.size(3) / 2 and maxSeq the table length freqs.size(0).
The torch check calls raise in source order: seq_len must equal l
(lines 226 and 227 state this same condition twice), each grid extent
must be at most maxSeq, and 2 * l - f * h * w must differ from 1
(line 252; truncated natural subtraction agrees with the python value
there because f * h * w equals l at that point). -/
noncomputable def rope_apply_sample (x : ℕ → ℕ → ℕ → ℝ)
    (l c maxSeq : ℕ) (freqs : ℕ → ℕ → Mat2) (f h w : ℕ) :
    Except String (ℕ → ℕ → ℕ → ℝ) :=
  if f * h * w ≠ l then Except.error "seq_len must equal x.size(1)"
  else if ¬ f ≤ maxSeq then Except.error "f must not exceed max_seq_len"
  else if ¬ h ≤ maxSeq then Except.error "h must not exceed max_seq_len"
  else if ¬ w ≤ maxSeq then Except.error "w must not exceed max_seq_len"
  else if 2 * l - f * h * w = 1 then
    Except.error "2 * l - f * h * w must not equal 1"
  else Except.ok (rope_apply_out x freqs c f h w)

/-- Embedding of the whole sample loop and final stack of rope_apply
(model.py lines 209 to 256): sample i of the batch is processed with
its grid triple, and the first failing check aborts the call. -/
noncomputable def rope_apply (x : ℕ → ℕ → ℕ → ℕ → ℝ) (l c maxSeq : ℕ)
    (freqs : ℕ → ℕ → Mat2) (grids : List (ℕ × ℕ × ℕ)) (i : ℕ) :
    Except String (List (ℕ → ℕ → ℕ → ℝ)) :=
  match grids with
  | [] => Except.ok []
  | (f, h, w) :: rest =>
    match rope_apply_sample (x i) l c maxSeq freqs f h w with
    | Except.error e => Except.error e
    | Except.ok o =>
      match rope_apply x l c maxSeq freqs rest (i + 1) with
      | Except.error e => Except.error e
      | Except.ok os => Except.ok (o :: os)

/-- The dimensions of the three rope_params tables concatenated in the
WanModel constructor (model.py lines 656 to 662), with d the per head
dimension dim / num_heads. -/
def wan_freq_dims (d : ℕ) : ℕ × ℕ × ℕ :=
  (d - 4 * (d / 6), 2 * (d / 6), 2 * (d / 6))

/-- An offset below D added to the base of head gi lands back in head
gi. -/
theorem head_div (gi r D : ℕ) (hr : r < D) : (gi * D + r) / D = gi := by
  have hD : 0 < D := by omega
  rw [Nat.mul_comm gi D, Nat.mul_add_div hD, Nat.div_eq_of_lt hr]
  omega

/-- An offset below D added to the base of head gi keeps its in head
coordinate. -/
theorem head_mod (gi r D : ℕ) (hr : r < D) : (gi * D + r) % D = r := by
  rw [Nat.mul_comm gi D, Nat.mul_add_mod]
  exact Nat.mod_eq_of_lt hr

/-- Evaluation of rope_kernel at the real coordinate of pair j of a
stored head gi. -/
theorem rope_kernel_pair_re (x pv fv : ℕ → ℝ) (nH H D gi j : ℕ)
    (hgi : gi < nH) (hj : 2 * j + 1 < D) :
    rope_kernel x pv fv nH H D (gi * D + 2 * j)
      = x (gi * D + 2 * j) * Real.cos (pv (gi / H) * fv j)
        - x (gi * D + 2 * j + 1) * Real.sin (pv (gi / H) * fv j) := by
  have hlt : 2 * j < D := by omega
  unfold rope_kernel
  rw [head_div gi (2 * j) D hlt, head_mod gi (2 * j) D hlt]
  have hk0 : 2 * j % 2 = 0 := by omega
  have hk2 : 2 * j / 2 = j := by omega
  rw [if_pos hgi, if_pos hk0, hk2]

/-- Evaluation of rope_kernel at the imaginary coordinate of pair j of
a stored head gi. -/
theorem rope_kernel_pair_im (x pv fv : ℕ → ℝ) (nH H D gi j : ℕ)
    (hgi : gi < nH) (hj : 2 * j + 1 < D) :
    rope_kernel x pv fv nH H D (gi * D + (2 * j + 1))
      = x (gi * D + 2 * j + 1) * Real.cos (pv (gi / H) * fv j)
        + x (gi * D + 2 * j) * Real.sin (pv (gi / H) * fv j) := by
  unfold rope_kernel
  rw [head_div gi (2 * j + 1) D hj, head_mod gi (2 * j + 1) D hj]
  have hk1 : ¬ (2 * j + 1) % 2 = 0 := by omega
  have hk2 : (2 * j + 1) / 2 = j := by omega
  rw [if_pos hgi, if_neg hk1, hk2]

/-- C4: the three way frequency band split of rope_apply is computed
as band_T = total_pairs - 2 * (total_pairs / 3) and
band_H = band_W = total_pairs / 3 with integer floor division, the
three bands always sum to total_pairs, and the temporal band absorbs
the remainder of total_pairs modulo 3. -/
theorem splitSizes_spec (c : ℕ) :
    splitSizes c = (c - 2 * (c / 3), c / 3, c / 3)
    ∧ (splitSizes c).1 + (splitSizes c).2.1 + (splitSizes c).2.2 = c
    ∧ (splitSizes c).1 = c / 3 + c % 3 := by
  refine ⟨rfl, ?_, ?_⟩ <;> simp only [splitSizes, bT, bH, bW] <;> omega

/-- C5 counterexample: the split of 10 pairs is not (6, 2, 2), so the
claimed pair (with 9 mapping to (5, 2, 2)) is false. -/
theorem splitSizes_claim_false :
    ¬ (splitSizes 10 = (6, 2, 2) ∧ splitSizes 9 = (5, 2, 2)) := by
  decide

/-- C5 amended: for 10 pairs the partition yields (4, 3, 3) and for 9
pairs it yields (3, 3, 3), the temporal band absorbing the remainder
modulo 3. -/
theorem splitSizes_ten_nine :
    splitSizes 10 = (4, 3, 3) ∧ splitSizes 9 = (3, 3, 3) := by
  decide

/-- C7 counterexample: rope_params succeeds on max_position 0 (a non
positive bound) and theta minus one (a non positive base), so build
time validation of those two parameters does not happen. -/
theorem rope_params_accepts_nonpositive :
    (rope_params 0 2 (-1)).isSome = true := rfl

/-- C7 amended: rope_params fails at build time exactly when the
rotation dimension is odd; the max_position bound and theta are not
validated. -/
theorem rope_params_fails_iff_odd (maxPos dim : ℕ) (theta : ℝ) :
    (rope_params maxPos dim theta).isSome = true ↔ dim % 2 = 0 := by
  unfold rope_params
  split_ifs with h <;> simp [h]

/-- C10: for every even per head dimension d, the pair counts of the
three tables built in the WanModel constructor sum to d / 2 and agree
with the split sizes that rope_apply later applies to c = d / 2 pairs;
in particular (d / 2) / 3 = d / 6. -/
theorem wan_freqs_match_split (d : ℕ) (heven : d % 2 = 0) :
    (wan_freq_dims d).1 / 2 + (wan_freq_dims d).2.1 / 2
        + (wan_freq_dims d).2.2 / 2 = d / 2
    ∧ ((wan_freq_dims d).1 / 2, (wan_freq_dims d).2.1 / 2,
        (wan_freq_dims d).2.2 / 2) = splitSizes (d / 2)
    ∧ (d / 2) / 3 = d / 6 := by
  simp only [wan_freq_dims, splitSizes, bT, bH, bW, Prod.mk.injEq]
  refine ⟨?_, ⟨?_, ?_, ?_⟩, ?_⟩ <;> omega

/-- C10 witness at d equal 10. -/
theorem wan_freqs_match_split_witness :
    (wan_freq_dims 10).1 / 2 + (wan_freq_dims 10).2.1 / 2
        + (wan_freq_dims 10).2.2 / 2 = 10 / 2
    ∧ ((wan_freq_dims 10).1 / 2, (wan_freq_dims 10).2.1 / 2,
        (wan_freq_dims 10).2.2 / 2) = splitSizes (10 / 2)
    ∧ (10 / 2) / 3 = 10 / 6 :=
  wan_freqs_match_split 10 rfl

/-- C3: the code raises on any padded sample.  With one sample of grid
(1, 1, 1) and padded length 2, the token count 1 is strictly below the
padded length, and the first torch check of the loop (seq_len equal to
x.size(1), model.py line 226) fails, so the call errors out instead of
passing token 1 through: the padding concatenation on line 248 is
unreachable for padded samples. -/
theorem rope_apply_padding_raises :
    rope_apply (fun _ _ _ _ => (0 : ℝ)) 2 1 1024 (fun _ _ => ⟨1, 0, 0, 1⟩)
        [(1, 1, 1)] 0
      = Except.error "seq_len must equal x.size(1)" := rfl

/-- C8: if every entry of the position array is zero, rope_kernel
leaves every element of x unchanged, because every angle is zero times
the frequency, with cosine one and sine zero. -/
theorem rope_kernel_zero_pos (x posv fv : ℕ → ℝ) (nH H D : ℕ)
    (hpos : ∀ i, posv i = 0) (idx : ℕ) :
    rope_kernel x posv fv nH H D idx = x idx := by
  unfold rope_kernel
  rw [hpos (idx / D / H)]
  simp only [zero_mul, Real.cos_zero, Real.sin_zero, mul_one, mul_zero,
    sub_zero, add_zero]
  have key : idx / D * D + idx % D = idx := Nat.div_add_mod' idx D
  split_ifs with h1 h2
  · congr 1
    generalize hq : idx / D * D = q
    rw [hq] at key
    generalize hm : idx % D = m
    rw [hm] at key h2
    omega
  · congr 1
    generalize hq : idx / D * D = q
    rw [hq] at key
    generalize hm : idx % D = m
    rw [hm] at key h2
    omega
  · rfl

/-- C8 witness: a concrete kernel call with all positions zero returns
the input element. -/
theorem rope_kernel_zero_pos_witness :
    rope_kernel (fun i => (i : ℝ)) (fun _ => 0) (fun _ => 1) 4 2 2 5
      = (fun i => (i : ℝ)) 5 :=
  rope_kernel_zero_pos (fun i => (i : ℝ)) (fun _ => 0) (fun _ => 1) 4 2 2
    (fun _ => rfl) 5

/-- C9: rotating all heads for the positions in p1 and then for the
positions in p2, with exact real trigonometry, equals one rotation for
the pointwise sums p1 + p2, for any head count, heads per element,
and positive even head dimension. -/
theorem rope_kernel_additive (x p1 p2 fv : ℕ → ℝ) (nH H D : ℕ)
    (hD : 0 < D) (hE : D % 2 = 0) (idx : ℕ) :
    rope_kernel (rope_kernel x p1 fv nH H D) p2 fv nH H D idx
      = rope_kernel x (fun i => p1 i + p2 i) fv nH H D idx := by
  obtain ⟨gi, m, hm, rfl⟩ : ∃ gi m, m < D ∧ idx = gi * D + m :=
    ⟨idx / D, idx % D, Nat.mod_lt idx hD, (Nat.div_add_mod' idx D).symm⟩
  by_cases hgi : gi < nH
  · by_cases hpar : m % 2 = 0
    · obtain ⟨j, rfl⟩ : ∃ j, m = 2 * j := ⟨m / 2, by omega⟩
      have hj : 2 * j + 1 < D := by omega
      rw [rope_kernel_pair_re (rope_kernel x p1 fv nH H D) p2 fv nH H D gi j
            hgi hj,
          rope_kernel_pair_re x (fun i => p1 i + p2 i) fv nH H D gi j hgi hj]
      simp only [Nat.add_assoc]
      rw [rope_kernel_pair_re x p1 fv nH H D gi j hgi hj,
          rope_kernel_pair_im x p1 fv nH H D gi j hgi hj]
      simp only [Nat.add_assoc, add_mul, Real.cos_add, Real.sin_add]
      ring
    · obtain ⟨j, rfl⟩ : ∃ j, m = 2 * j + 1 := ⟨m / 2, by omega⟩
      have hj : 2 * j + 1 < D := hm
      rw [rope_kernel_pair_im (rope_kernel x p1 fv nH H D) p2 fv nH H D gi j
            hgi hj,
          rope_kernel_pair_im x (fun i => p1 i + p2 i) fv nH H D gi j hgi hj]
      simp only [Nat.add_assoc]
      rw [rope_kernel_pair_im x p1 fv nH H D gi j hgi hj,
          rope_kernel_pair_re x p1 fv nH H D gi j hgi hj]
      simp only [Nat.add_assoc, add_mul, Real.cos_add, Real.sin_add]
      ring
  · simp only [rope_kernel, head_div gi m D hm, if_neg hgi]

/-- C9 witness: a concrete double rotation equals the single rotation
for the summed positions. -/
theorem rope_kernel_additive_witness :
    rope_kernel (rope_kernel (fun _ => 1) (fun _ => 1) (fun _ => 1) 1 1 2)
        (fun _ => 1) (fun _ => 1) 1 1 2 0
      = rope_kernel (fun _ => 1)
          (fun i => (fun _ => (1 : ℝ)) i + (fun _ => (1 : ℝ)) i)
          (fun _ => 1) 1 1 2 0 :=
  rope_kernel_additive (fun _ => 1) (fun _ => 1) (fun _ => 1) (fun _ => 1)
    1 1 2 (by omega) (by omega) 0

/-- C1: for every even dim of at least 2, positive theta, position p
below max_position and frequency index i below dim / 2, the table
built by rope_params stores at p, i the rotation matrix with rows
cos, minus sin and sin, cos of the angle p divided by theta to the
real power 2 i over dim. -/
theorem rope_params_entry (maxPos dim : ℕ) (theta : ℝ)
    (tbl : ℕ → ℕ → Mat2) (p i : ℕ)
    (hdim : 2 ≤ dim) (heven : dim % 2 = 0) (htheta : 0 < theta)
    (hp : p < maxPos) (hi : i < dim / 2)
    (htbl : rope_params maxPos dim theta = some tbl) :
    tbl p i = Mat2.mk
      (Real.cos ((p : ℝ) / Real.rpow theta (2 * (i : ℝ) / (dim : ℝ))))
      (-(Real.sin ((p : ℝ) / Real.rpow theta (2 * (i : ℝ) / (dim : ℝ)))))
      (Real.sin ((p : ℝ) / Real.rpow theta (2 * (i : ℝ) / (dim : ℝ))))
      (Real.cos ((p : ℝ) / Real.rpow theta (2 * (i : ℝ) / (dim : ℝ)))) := by
  unfold rope_params at htbl
  rw [if_pos heven] at htbl
  injection htbl with h
  subst h
  simp only [mul_one_div]

/-- C1 witness: the table for max_position 4, dim 2, theta 10000 at
position 1, index 0 is the rotation matrix of angle one over theta to
the power zero. -/
theorem rope_params_entry_witness :
    (rope_params 4 2 10000).getD (fun _ _ => ⟨0, 0, 0, 0⟩) 1 0
      = Mat2.mk
          (Real.cos (((1 : ℕ) : ℝ)
            / Real.rpow 10000 (2 * ((0 : ℕ) : ℝ) / ((2 : ℕ) : ℝ))))
          (-(Real.sin (((1 : ℕ) : ℝ)
            / Real.rpow 10000 (2 * ((0 : ℕ) : ℝ) / ((2 : ℕ) : ℝ)))))
          (Real.sin (((1 : ℕ) : ℝ)
            / Real.rpow 10000 (2 * ((0 : ℕ) : ℝ) / ((2 : ℕ) : ℝ))))
          (Real.cos (((1 : ℕ) : ℝ)
            / Real.rpow 10000 (2 * ((0 : ℕ) : ℝ) / ((2 : ℕ) : ℝ)))) :=
  rope_params_entry 4 2 10000 _ 1 0 (by omega) rfl (by norm_num)
    (by omega) (by omega) rfl

/-- C2: for a sample that rope_apply accepts, the per token frequency
vector of token t with row major coordinates ft ht wt is the
concatenation of bandT at ft, bandH at ht and bandW at wt, and when
the table entries are rotation matrices with cosines cs and sines sn,
the coordinate pair at sub offset j of every head of that token is
mapped to re cos minus im sin and im cos plus re sin of the entry at
position j of that concatenated vector. -/
theorem rope_apply_sample_rotates (x : ℕ → ℕ → ℕ → ℝ)
    (cs sn : ℕ → ℕ → ℝ) (freqs : ℕ → ℕ → Mat2)
    (l c maxSeq f h w : ℕ) (out : ℕ → ℕ → ℕ → ℝ) (t nh j : ℕ)
    (hfreq : ∀ p q, freqs p q = ⟨cs p q, -(sn p q), sn p q, cs p q⟩)
    (hok : rope_apply_sample x l c maxSeq freqs f h w = Except.ok out)
    (ht : t < f * h * w) (hj : j < c) :
    freqsTok c freqs f h w t j
        = ⟨cs (axisPos c f h w t j) j, -(sn (axisPos c f h w t j) j),
           sn (axisPos c f h w t j) j, cs (axisPos c f h w t j) j⟩
    ∧ out t nh (2 * j)
        = x t nh (2 * j) * cs (axisPos c f h w t j) j
          - x t nh (2 * j + 1) * sn (axisPos c f h w t j) j
    ∧ out t nh (2 * j + 1)
        = x t nh (2 * j + 1) * cs (axisPos c f h w t j) j
          + x t nh (2 * j) * sn (axisPos c f h w t j) j := by
  have hout : out = rope_apply_out x freqs c f h w := by
    unfold rope_apply_sample at hok
    split_ifs at hok
    exact (Except.ok.inj hok).symm
  subst hout
  have hTok : freqsTok c freqs f h w t j
      = ⟨cs (axisPos c f h w t j) j, -(sn (axisPos c f h w t j) j),
         sn (axisPos c f h w t j) j, cs (axisPos c f h w t j) j⟩ := by
    unfold freqsTok bandT bandH bandW axisPos
    split_ifs with hb1 hb2
    · exact hfreq _ _
    · rw [(by omega : bT c + (j - bT c) = j)]
      exact hfreq _ _
    · rw [(by omega : bT c + bH c + (j - bT c - bH c) = j)]
      exact hfreq _ _
  refine ⟨hTok, ?_, ?_⟩
  · unfold rope_apply_out
    have hk0 : 2 * j % 2 = 0 := by omega
    have hk2 : 2 * j / 2 = j := by omega
    rw [if_pos ht, if_pos hk0, hk2, hTok]
    show x t nh (2 * j) * cs (axisPos c f h w t j) j
        + x t nh (2 * j + 1) * -(sn (axisPos c f h w t j) j) = _
    ring
  · unfold rope_apply_out
    have hk1 : ¬ (2 * j + 1) % 2 = 0 := by omega
    have hk2 : (2 * j + 1) / 2 = j := by omega
    rw [if_pos ht, if_neg hk1, hk2, hTok]
    show x t nh (2 * j) * sn (axisPos c f h w t j) j
        + x t nh (2 * j + 1) * cs (axisPos c f h w t j) j = _
    ring

/-- C2 witness: a concrete accepted sample with grid 2 1 1, one pair
per head, identity rotation entries. -/
theorem rope_apply_sample_rotates_witness :
    freqsTok 1 (fun _ _ => (⟨1, -0, 0, 1⟩ : Mat2)) 2 1 1 1 0
        = (⟨1, -0, 0, 1⟩ : Mat2)
    ∧ rope_apply_out (fun _ _ k => (k : ℝ)) (fun _ _ => ⟨1, -0, 0, 1⟩)
          1 2 1 1 1 0 (2 * 0)
        = ((2 * 0 : ℕ) : ℝ) * 1 - ((2 * 0 + 1 : ℕ) : ℝ) * 0
    ∧ rope_apply_out (fun _ _ k => (k : ℝ)) (fun _ _ => ⟨1, -0, 0, 1⟩)
          1 2 1 1 1 0 (2 * 0 + 1)
        = ((2 * 0 + 1 : ℕ) : ℝ) * 1 + ((2 * 0 : ℕ) : ℝ) * 0 :=
  rope_apply_sample_rotates (fun _ _ k => (k : ℝ)) (fun _ _ => 1)
    (fun _ _ => 0) (fun _ _ => ⟨1, -0, 0, 1⟩) 2 1 1024 2 1 1
    (rope_apply_out (fun _ _ k => (k : ℝ)) (fun _ _ => ⟨1, -0, 0, 1⟩) 1 2 1 1)
    1 0 0 (fun p q => rfl) rfl (by omega) (by omega)

/-- C6: whenever x is not 3 dimensional or not contiguous, or pos is
not a contiguous 1 dimensional tensor of length N, or freqs is not a
contiguous 1 dimensional tensor of length D over 2, rope_apply_jit
reports an error and hands the contents of x back entirely unchanged:
the checks all run before the kernel, so a rejected call mutates
nothing. -/
theorem rope_apply_jit_rejects (x pos freqs : TorchTensor)
    (hbad : x.shape.length ≠ 3 ∨ x.contiguous = false
      ∨ pos.shape.length ≠ 1 ∨ pos.shape.getD 0 0 ≠ x.shape.getD 0 0
      ∨ pos.contiguous = false
      ∨ freqs.shape.length ≠ 1 ∨ freqs.shape.getD 0 0 * 2 ≠ x.shape.getD 2 0
      ∨ freqs.contiguous = false) :
    (rope_apply_jit x pos freqs).2.isSome = true
      ∧ (rope_apply_jit x pos freqs).1 = x := by
  unfold rope_apply_jit
  split_ifs with h1 h2 h3 h4 h5 h6
  · exact ⟨rfl, rfl⟩
  · exact ⟨rfl, rfl⟩
  · exact ⟨rfl, rfl⟩
  · exact ⟨rfl, rfl⟩
  · exact ⟨rfl, rfl⟩
  · exact ⟨rfl, rfl⟩
  · exfalso
    rcases hbad with hb | hb | hb | hb | hb | hb | hb | hb
    · exact h1 hb
    · exact h2 hb
    · exact h3 (Or.inl hb)
    · exact h3 (Or.inr hb)
    · exact h4 hb
    · exact h5 (Or.inl hb)
    · exact h5 (Or.inr hb)
    · exact h6 hb

/-- C6 witness: a 2 dimensional x is rejected with x unchanged. -/
theorem rope_apply_jit_rejects_witness :
    (rope_apply_jit ⟨[2, 2], true, fun _ => 0⟩ ⟨[2], true, fun _ => 0⟩
        ⟨[1], true, fun _ => 0⟩).2.isSome = true
      ∧ (rope_apply_jit ⟨[2, 2], true, fun _ => 0⟩ ⟨[2], true, fun _ => 0⟩
        ⟨[1], true, fun _ => 0⟩).1 = ⟨[2, 2], true, fun _ => 0⟩ :=
  rope_apply_jit_rejects ⟨[2, 2], true, fun _ => 0⟩ ⟨[2], true, fun _ => 0⟩
    ⟨[1], true, fun _ => 0⟩ (Or.inl (by decide))
